import Mathlib

/-
Verification of the hft-mt5-bot core pipeline against its specification.

The Python sources are shallowly embedded as Lean definitions:
- machine floats are modelled as exact numbers (ℚ where only field
  arithmetic and comparisons occur, ℝ where the code uses exp/tanh/log/sqrt);
- Python dicts keyed by strings/ints are modelled as association lists,
  with assignment `d[k] = v` as `dictInsert`;
- fallible Gateway (MT5 handler) calls are modelled as `Option`-valued
  oracles supplied as parameters: `none` stands for the falsy/error-dict
  responses the code tests with `if not x` / `if "error" in x`;
- a `try/except` that swallows an exception and returns a fail-closed
  value is modelled by an explicit branch at the only raising operation
  (division by zero), commented at the spot.
-/

/-- Python dict assignment `d[k] = v` on an association list: replaces the
value at an existing key in place, otherwise appends the new binding. -/
def dictInsert {κ β : Type} [DecidableEq κ] : List (κ × β) → κ → β → List (κ × β)
  | [], k, v => [(k, v)]
  | (k0, v0) :: rest, k, v =>
    if k0 = k then (k, v) :: rest else (k0, v0) :: dictInsert rest k v

/-- Tick, from `core/data_types.py` (`Tick` dataclass). -/
structure Tick (α : Type) where
  bid : α
  ask : α
  time : α
  volume : α
  deriving DecidableEq

/-- Record layout of the numpy ring buffer in `TickBuffer.__init__`
(`core/data_types.py`): fields time/bid/ask/volume/spread/mid_price. -/
structure TickRec (α : Type) where
  time : α
  bid : α
  ask : α
  volume : α
  spread : α
  mid_price : α
  deriving DecidableEq

/-- State of `TickBuffer` (`core/data_types.py`): the Tick-object list,
the numpy record ring of length `max_size`, the write index and the
filled flag. -/
structure TickBuffer (α : Type) where
  max_size : ℕ
  ticks : List (Tick α)
  buffer : List (TickRec α)
  current_idx : ℕ
  is_filled : Bool
  deriving DecidableEq

/-- Freshly constructed `TickBuffer(max_size)`: numpy `zeros` ring, write
index 0, not filled. -/
def TickBuffer.init (α : Type) [Zero α] (max_size : ℕ) : TickBuffer α :=
  { max_size := max_size
    ticks := []
    buffer := List.replicate max_size ⟨0, 0, 0, 0, 0, 0⟩
    current_idx := 0
    is_filled := false }

/-- Embedding of `TickBuffer.add_tick`: append to the Tick list (popping
the front beyond `max_size`), overwrite the ring slot at `current_idx`
with the derived record (spread = ask − bid, mid = (bid+ask)/2), advance
the index modulo `max_size`, and set `is_filled` when it wraps to 0. -/
def TickBuffer.add_tick {α : Type} [Field α] (b : TickBuffer α) (t : Tick α) : TickBuffer α :=
  let ticks := b.ticks ++ [t]
  let ticks := if b.max_size < ticks.length then ticks.drop 1 else ticks
  let r : TickRec α :=
    { time := t.time, bid := t.bid, ask := t.ask, volume := t.volume
      spread := t.ask - t.bid, mid_price := (t.bid + t.ask) / 2 }
  let buffer := b.buffer.set b.current_idx r
  let idx := (b.current_idx + 1) % b.max_size
  { b with ticks := ticks, buffer := buffer, current_idx := idx,
           is_filled := b.is_filled || decide (idx = 0) }

/-- Embedding of `TickBuffer.get_recent(n)`: `n = none` defaults to
`max_size`; when filled and `n ≥ max_size` the code returns the raw ring
(`self.buffer.copy()`), otherwise it slices from `(current_idx - n) %
max_size` (Python `%` is nonnegative, matching `Int.emod`); when not yet
filled it returns `buffer[:current_idx]` regardless of `n`. -/
def TickBuffer.get_recent {α : Type} (b : TickBuffer α) (n? : Option ℕ) : List (TickRec α) :=
  let n := n?.getD b.max_size
  if b.is_filled then
    if b.max_size ≤ n then
      b.buffer
    else
      let idx := (((b.current_idx : ℤ) - (n : ℤ)) % (b.max_size : ℤ)).toNat
      if idx < b.current_idx then
        (b.buffer.take b.current_idx).drop idx
      else
        b.buffer.drop idx ++ b.buffer.take b.current_idx
  else
    b.buffer.take b.current_idx

/-- Python slice `l[-k:]`: the last `k` elements (all of them when fewer). -/
def lastSlice {α : Type} (k : ℕ) (l : List α) : List α :=
  l.drop (l.length - k)

/-- Numpy `np.linspace(a, b, n)`: `n` evenly spaced points from `a` to `b`
inclusive (for `n = 1` just `[a]`; the `0/0 = 0` convention of `ℝ`
reproduces that case from the single formula). -/
noncomputable def npLinspace (a b : ℝ) (n : ℕ) : List ℝ :=
  (List.range n).map (fun i => a + (b - a) * i / ((n : ℝ) - 1))

/-- Exponential weights `np.exp(np.linspace(-1, 0, n))` used throughout
`core/feature_generator.py`. -/
noncomputable def expWeights (n : ℕ) : List ℝ :=
  (npLinspace (-1) 0 n).map Real.exp

/-- Numpy `np.diff(l)`: successive differences. -/
noncomputable def npDiff (l : List ℝ) : List ℝ :=
  List.zipWith (fun a b => b - a) l l.tail

/-- Elementwise `np.diff(prices) / prices[:-1]`, the tick-to-tick returns. -/
noncomputable def pctReturns (l : List ℝ) : List ℝ :=
  List.zipWith (fun prev next => (next - prev) / prev) l l.tail

/-- Numpy `np.average(xs, weights=ws) = Σ xᵢwᵢ / Σ wᵢ`. -/
noncomputable def npAverage (xs ws : List ℝ) : ℝ :=
  (List.zipWith (fun x w => x * w) xs ws).sum / ws.sum

/-- Numpy `np.clip(x, lo, hi)`. -/
noncomputable def npClip (x lo hi : ℝ) : ℝ :=
  max lo (min x hi)

/-- Slope coefficient of `np.polyfit(xs, ys, 1, w=ws)`. Numpy scales the
residuals linearly by `w`, i.e. solves weighted least squares with
effective weights `w²`; this is the closed form of that slope. -/
noncomputable def polyfitSlope (xs ys ws : List ℝ) : ℝ :=
  let w2 := ws.map (fun w => w ^ 2)
  let sw := w2.sum
  let sx := (List.zipWith (fun w x => w * x) w2 xs).sum
  let sy := (List.zipWith (fun w y => w * y) w2 ys).sum
  let sxx := (List.zipWith (fun w x => w * x ^ 2) w2 xs).sum
  let sxy := (List.zipWith (fun w p => w * p) w2 (List.zipWith (fun x y => x * y) xs ys)).sum
  (sw * sxy - sx * sy) / (sw * sxx - sx ^ 2)

/-- Configuration of `FeatureGenerator` (`core/feature_generator.py`). -/
structure FeatureGenerator where
  window_size : ℕ

/-- Embedding of `FeatureGenerator._calculate_returns`. -/
noncomputable def FeatureGenerator.calculate_returns (prices : List ℝ) : ℝ :=
  if prices.length < 2 then 0
  else ((prices.getLastD 0) - prices.headD 0) / prices.headD 0

/-- Embedding of `FeatureGenerator._calculate_volatility`: exponentially
weighted standard deviation of returns. -/
noncomputable def FeatureGenerator.calculate_volatility (prices : List ℝ) : ℝ :=
  if prices.length < 2 then 0.0001
  else
    let returns := pctReturns prices
    let weights := expWeights returns.length
    let weighted_variance :=
      npAverage (returns.map (fun r => r ^ 2)) weights - (npAverage returns weights) ^ 2
    Real.sqrt weighted_variance

/-- Embedding of `FeatureGenerator._calculate_momentum` (guards on
`self.window_size`). -/
noncomputable def FeatureGenerator.calculate_momentum (window_size : ℕ) (prices : List ℝ) : ℝ :=
  if prices.length < window_size then 0
  else
    let weights := expWeights prices.length
    (List.zipWith (fun r w => r * w) (pctReturns prices) weights.tail).sum

/-- Embedding of `FeatureGenerator._calculate_mean_deviation`. -/
noncomputable def FeatureGenerator.calculate_mean_deviation (prices : List ℝ) : ℝ :=
  if prices.length < 2 then 0
  else
    let weights := expWeights prices.length
    let weighted_mean := npAverage prices weights
    ((prices.getLastD 0) - weighted_mean) / weighted_mean

/-- Embedding of `FeatureGenerator._calculate_acceleration`. -/
noncomputable def FeatureGenerator.calculate_acceleration (prices : List ℝ) : ℝ :=
  if prices.length < 3 then 0
  else
    let returns := pctReturns prices
    if returns.length < 2 then 0
    else ((returns.getLastD 0) - returns.headD 0) * 100

/-- Embedding of `FeatureGenerator._calculate_volume_intensity`. -/
noncomputable def FeatureGenerator.calculate_volume_intensity (volumes : List ℝ) : ℝ :=
  if volumes.length < 2 then 1
  else
    let recent_avg := volumes.dropLast.sum / (volumes.dropLast.length : ℝ)
    if recent_avg = 0 then 1 else (volumes.getLastD 0) / recent_avg

/-- Embedding of `FeatureGenerator._calculate_volume_trend` (weighted
polyfit slope through tanh). -/
noncomputable def FeatureGenerator.calculate_volume_trend (window_size : ℕ) (volumes : List ℝ) : ℝ :=
  if volumes.length < window_size then 0
  else
    let weights := expWeights volumes.length
    let trend := polyfitSlope ((List.range volumes.length).map (fun i => (i : ℝ))) volumes weights
    Real.tanh (trend * 5)

/-- Embedding of `FeatureGenerator._calculate_vwap_difference`. -/
noncomputable def FeatureGenerator.calculate_vwap_difference (ticks : List (TickRec ℝ)) : ℝ :=
  if ticks.length < 2 then 0
  else
    let volumes := ticks.map (fun t => t.volume)
    let prices := ticks.map (fun t => t.mid_price)
    if volumes.sum = 0 then 0
    else
      let weights := expWeights volumes.length
      let vwap :=
        (List.zipWith (fun pv w => pv * w)
          (List.zipWith (fun p v => p * v) prices volumes) weights).sum /
        (List.zipWith (fun v w => v * w) volumes weights).sum
      ((prices.getLastD 0) - vwap) / vwap

/-- Embedding of `FeatureGenerator._calculate_bid_strength`: weighted
fraction of positive bid deltas. -/
noncomputable def FeatureGenerator.calculate_bid_strength (ticks : List (TickRec ℝ)) : ℝ :=
  if ticks.length < 2 then 0.5
  else
    let bid_changes := npDiff (ticks.map (fun t => t.bid))
    let weights := expWeights bid_changes.length
    (List.zipWith (fun d w => if 0 < d then w else 0) bid_changes weights).sum / weights.sum

/-- Embedding of `FeatureGenerator._calculate_ask_strength`. -/
noncomputable def FeatureGenerator.calculate_ask_strength (ticks : List (TickRec ℝ)) : ℝ :=
  if ticks.length < 2 then 0.5
  else
    let ask_changes := npDiff (ticks.map (fun t => t.ask))
    let weights := expWeights ask_changes.length
    (List.zipWith (fun d w => if 0 < d then w else 0) ask_changes weights).sum / weights.sum

/-- Embedding of `FeatureGenerator._analyze_tick_pattern`. -/
noncomputable def FeatureGenerator.analyze_tick_pattern (ticks : List (TickRec ℝ)) : ℝ :=
  if ticks.length < 2 then 0
  else
    let price_changes := npDiff (ticks.map (fun t => t.mid_price))
    let weights := expWeights price_changes.length
    let weighted_ups := (List.zipWith (fun d w => if 0 < d then w else 0) price_changes weights).sum
    let weighted_downs := (List.zipWith (fun d w => if d < 0 then w else 0) price_changes weights).sum
    (weighted_ups - weighted_downs) / weights.sum

/-- Embedding of `FeatureGenerator._calculate_trade_sign` (tick rule with
spread tie-breaking). -/
noncomputable def FeatureGenerator.calculate_trade_sign (ticks : List (TickRec ℝ)) : ℝ :=
  if ticks.length < 2 then 0
  else
    let last_tick := ticks.getLastD ⟨0, 0, 0, 0, 0, 0⟩
    let prev_tick := ticks.dropLast.getLastD ⟨0, 0, 0, 0, 0, 0⟩
    if prev_tick.mid_price < last_tick.mid_price then 1
    else if last_tick.mid_price < prev_tick.mid_price then -1
    else if last_tick.spread < prev_tick.spread then 0.5
    else if prev_tick.spread < last_tick.spread then -0.5
    else 0

/-- Embedding of `FeatureGenerator._calculate_quote_intensity`. -/
noncomputable def FeatureGenerator.calculate_quote_intensity (ticks : List (TickRec ℝ)) : ℝ :=
  if ticks.length < 2 then 1
  else
    let weights := expWeights (ticks.length - 1)
    let bid_changes := npDiff (ticks.map (fun t => t.bid))
    let ask_changes := npDiff (ticks.map (fun t => t.ask))
    let weighted_changes :=
      (List.zipWith (fun p w => if p.1 ≠ 0 ∨ p.2 ≠ 0 then w else 0)
        (List.zip bid_changes ask_changes) weights).sum
    weighted_changes / weights.sum

/-- Embedding of `FeatureGenerator.calculate_features`
(`core/feature_generator.py`): fetches `get_recent(window_size * 2)`,
returns the empty dict when fewer than `window_size` ticks came back, and
otherwise the 14 named features computed over sliced windows. -/
noncomputable def FeatureGenerator.calculate_features (fg : FeatureGenerator)
    (tick_buffer : TickBuffer ℝ) : List (String × ℝ) :=
  let ticks := tick_buffer.get_recent (some (fg.window_size * 2))
  if ticks.length < fg.window_size then []
  else
    let mid_prices := ticks.map (fun t => t.mid_price)
    let volumes := ticks.map (fun t => t.volume)
    [("price_change", FeatureGenerator.calculate_returns (lastSlice 5 mid_prices)),
     ("volatility", FeatureGenerator.calculate_volatility mid_prices),
     ("price_momentum", FeatureGenerator.calculate_momentum fg.window_size mid_prices),
     ("mean_deviation", FeatureGenerator.calculate_mean_deviation (lastSlice 7 mid_prices)),
     ("price_acceleration", FeatureGenerator.calculate_acceleration (lastSlice 3 mid_prices)),
     ("volume_intensity", FeatureGenerator.calculate_volume_intensity (lastSlice 5 volumes)),
     ("volume_trend", FeatureGenerator.calculate_volume_trend fg.window_size volumes),
     ("vwap_diff", FeatureGenerator.calculate_vwap_difference (lastSlice 5 ticks)),
     ("spread", (ticks.map (fun t => t.spread)).getLastD 0),
     ("bid_strength", FeatureGenerator.calculate_bid_strength (lastSlice 5 ticks)),
     ("ask_strength", FeatureGenerator.calculate_ask_strength (lastSlice 5 ticks)),
     ("tick_pattern", FeatureGenerator.analyze_tick_pattern (lastSlice 7 ticks)),
     ("trade_sign", FeatureGenerator.calculate_trade_sign (lastSlice 2 ticks)),
     ("quote_intensity", FeatureGenerator.calculate_quote_intensity (lastSlice 5 ticks))]

/-- Signal, from `core/data_types.py` (`Signal` dataclass). -/
structure Signal where
  direction : ℤ
  strength : ℝ
  features : List (String × ℝ)
  symbol : String
  timestamp : ℝ

/-- State of `SignalGenerator` (`core/signal_generator.py`): base
threshold, per-symbol last-signal times (seconds) and the minimum signal
interval (0.01 s in the source). -/
structure SignalGenerator where
  threshold : ℝ
  last_signal_time : List (String × ℝ)
  min_signal_interval : ℝ

/-- Lookup `features[k]` after a `k in features` membership test; the
default is never reached under the membership guard. -/
noncomputable def fget (features : List (String × ℝ)) (k : String) : ℝ :=
  (features.lookup k).getD 0

/-- Membership test `k in features` on the feature dict. -/
def fmem (features : List (String × ℝ)) (k : String) : Bool :=
  (features.lookup k).isSome

/-- Embedding of `SignalGenerator._create_neutral_signal`. -/
def SignalGenerator.create_neutral_signal (symbol : String) (timestamp : ℝ)
    (features : List (String × ℝ)) : Signal :=
  { direction := 0, strength := 0, features := features, symbol := symbol,
    timestamp := timestamp }

/-- Embedding of `SignalGenerator._calculate_price_signal`. -/
noncomputable def SignalGenerator.calculate_price_signal (features : List (String × ℝ)) : ℝ :=
  if !(fmem features "price_change") then 0
  else
    let signal : ℝ := 0
    let signal := if fmem features "price_change" then
        signal + Real.tanh (fget features "price_change" * 30)
      else signal
    let signal := if fmem features "spread" then
        signal * (1 - min 1 (fget features "spread" / 0.00002))
      else signal
    let signal := if fmem features "bid_strength" && fmem features "ask_strength" then
        signal + Real.tanh ((fget features "bid_strength" - fget features "ask_strength") * 15)
      else signal
    npClip (signal / 2) (-1) 1

/-- Embedding of `SignalGenerator._calculate_volume_signal` (`np.log1p x`
is `log (1 + x)`, `np.sign` is `Real.sign`). -/
noncomputable def SignalGenerator.calculate_volume_signal (features : List (String × ℝ)) : ℝ :=
  if !(fmem features "volume_intensity") then 0
  else
    let signal : ℝ := 0
    let signal := if 1.2 < fget features "volume_intensity" then
        (if fmem features "price_change" then
          Real.sign (fget features "price_change") *
            Real.log (1 + fget features "volume_intensity" * 1.5)
         else signal)
      else signal
    let signal := if fmem features "volume_trend" then
        signal + Real.tanh (fget features "volume_trend" * 8)
      else signal
    let signal := if fmem features "vwap_diff" then
        signal + Real.tanh (fget features "vwap_diff" * 15)
      else signal
    npClip signal (-1) 1

/-- Embedding of `SignalGenerator._calculate_momentum_signal`. -/
noncomputable def SignalGenerator.calculate_momentum_signal (features : List (String × ℝ)) : ℝ :=
  let signal : ℝ := 0
  let signal := if fmem features "price_momentum" then
      signal + Real.tanh (fget features "price_momentum" * 8)
    else signal
  let signal := if fmem features "mean_deviation" then
      signal - Real.tanh (fget features "mean_deviation" * 0.5)
    else signal
  let signal := if fmem features "price_acceleration" then
      signal + Real.tanh (fget features "price_acceleration" * 3)
    else signal
  npClip signal (-1) 1

/-- Embedding of `SignalGenerator._calculate_microstructure_signal`. -/
noncomputable def SignalGenerator.calculate_microstructure_signal (features : List (String × ℝ)) : ℝ :=
  let signal : ℝ := 0
  let signal := if fmem features "tick_pattern" then
      signal + fget features "tick_pattern" * 0.9
    else signal
  let signal := if fmem features "trade_sign" then
      signal + fget features "trade_sign" * 0.8
    else signal
  let signal := if fmem features "quote_intensity" then
      signal + Real.tanh ((fget features "quote_intensity" - 1) * 3) * 0.4
    else signal
  npClip signal (-1) 1

/-- Body of `SignalGenerator.generate_signal` past its two guard returns
(lines 29–63 of `core/signal_generator.py`): weighted components, dynamic
threshold, and either an emitted directional signal (recording
`last_signal_time[symbol] = timestamp / 1000`) or a neutral one. -/
noncomputable def SignalGenerator.evaluate (sg : SignalGenerator) (symbol : String)
    (features : List (String × ℝ)) (timestamp : ℝ) : Signal × SignalGenerator :=
  let combined_strength :=
    SignalGenerator.calculate_price_signal features * 0.6 +
    SignalGenerator.calculate_volume_signal features * 0.2 +
    SignalGenerator.calculate_momentum_signal features * 0.15 +
    SignalGenerator.calculate_microstructure_signal features * 0.05
  let dynamic_threshold :=
    if fmem features "volatility" then
      sg.threshold * max 0.2 (min 1.0 (0.8 - fget features "volatility"))
    else sg.threshold
  if dynamic_threshold < |combined_strength| then
    let direction : ℤ := if 0 < combined_strength then 1 else -1
    let strength := min 1.0 |combined_strength|
    ({ direction := direction, strength := strength, features := features,
       symbol := symbol, timestamp := timestamp },
     { sg with last_signal_time := dictInsert sg.last_signal_time symbol (timestamp / 1000) })
  else
    (SignalGenerator.create_neutral_signal symbol timestamp features, sg)

/-- Embedding of `SignalGenerator.generate_signal`: neutral on empty
features; neutral when the symbol has a recorded last-signal time and
`timestamp / 1000` is within `min_signal_interval` of it; otherwise the
evaluation body. The timestamp argument is in milliseconds, as passed by
the worker loop (`strategy.py` line 243). -/
noncomputable def SignalGenerator.generate_signal (sg : SignalGenerator) (symbol : String)
    (features : List (String × ℝ)) (timestamp : ℝ) : Signal × SignalGenerator :=
  if features.isEmpty then
    (SignalGenerator.create_neutral_signal symbol timestamp features, sg)
  else
    match sg.last_signal_time.lookup symbol with
    | some last =>
      if timestamp / 1000 - last < sg.min_signal_interval then
        (SignalGenerator.create_neutral_signal symbol timestamp features, sg)
      else
        sg.evaluate symbol features timestamp
    | none => sg.evaluate symbol features timestamp

/-- Account-info dict returned by `MT5Handler.get_account_info`
(`core/mt5_handler.py`), restricted to the fields the core reads. -/
structure AccountInfo where
  balance : ℚ
  equity : ℚ
  margin : ℚ
  free_margin : ℚ
  profit : ℚ
  deriving DecidableEq

/-- Position dict as consumed by `RiskManager.can_open_position` from
`get_positions` (fields `symbol` and `profit`). -/
structure GPosition where
  symbol : String
  profit : ℚ
  deriving DecidableEq

/-- Gateway responses consumed by `RiskManager`: `none` for
`get_positions` models an error response (`"error" in positions`), and
`none` for `get_account_info` models the falsy empty dict. -/
structure RMGateway where
  get_positions : Option (List GPosition)
  get_account_info : Option AccountInfo

/-- State of `RiskManager` (`core/risk_manager.py`). -/
structure RiskManager where
  max_risk_per_trade : ℚ
  max_total_risk : ℚ
  max_positions : ℕ
  max_drawdown : ℚ
  initial_equity : ℚ
  last_check_time : ℚ
  min_check_interval : ℚ
  deriving DecidableEq

/-- Embedding of `RiskManager.initialize`: fails on a falsy account dict,
otherwise records the baseline equity. -/
def RiskManager.initialize (rm : RiskManager) (account_info : Option AccountInfo) :
    Bool × RiskManager :=
  match account_info with
  | none => (false, rm)
  | some info => (true, { rm with initial_equity := info.equity })

/-- Embedding of `RiskManager.can_open_position`: rate limit, gateway
error check, per-symbol and total position caps, drawdown bound, margin
safety, total-risk bound; `last_check_time` is recorded only on the
accepting path. The two `initial_equity = 0` / `current_equity = 0`
branches model Python's ZeroDivisionError at those divisions being caught
by the enclosing `except`, which returns False. -/
def RiskManager.can_open_position (rm : RiskManager) (gw : RMGateway) (symbol : String)
    (current_time : ℚ) : Bool × RiskManager :=
  if current_time - rm.last_check_time < rm.min_check_interval then (false, rm)
  else
    match gw.get_positions with
    | none => (false, rm)
    | some positions =>
      let symbol_positions := (positions.filter (fun p => p.symbol = symbol)).length
      if 2 ≤ symbol_positions then (false, rm)
      else if rm.max_positions ≤ positions.length then (false, rm)
      else
        match gw.get_account_info with
        | none => (false, rm)
        | some account_info =>
          if rm.initial_equity = 0 then (false, rm)
          else
            let current_equity := account_info.equity
            let drawdown := 1 - current_equity / rm.initial_equity
            if rm.max_drawdown < drawdown then (false, rm)
            else
              let margin := account_info.margin
              let free_margin := account_info.free_margin
              if 0 < margin ∧ free_margin / margin < 2 then (false, rm)
              else if ¬(0 < margin) ∧ free_margin ≤ 0 then (false, rm)
              else if current_equity = 0 then (false, rm)
              else
                let total_risk := (positions.map (fun p => |p.profit|)).sum / current_equity
                if rm.max_total_risk < total_risk then (false, rm)
                else (true, { rm with last_check_time := current_time })

/-- Position, from `core/execution_engine.py` (`Position` dataclass);
`type` is 0 for buy and anything else for sell, as stored from
`signal_dir`. -/
structure Position where
  ticket : ℕ
  symbol : String
  type : ℤ
  volume : ℚ
  open_price : ℚ
  virtual_sl : ℚ
  virtual_tp : ℚ
  open_time : ℚ
  deriving DecidableEq

/-- Bid/ask pair of a tick dict from `MT5Handler.get_last_tick`. -/
structure TickQuote where
  bid : ℚ
  ask : ℚ
  deriving DecidableEq

/-- Gateway responses consumed by `ExecutionEngine`: `last_tick` is
`none` for a falsy or error tick dict; `symbol_point` is the optional
`point` field of `get_symbol_info` (the code defaults it to 0.0001);
`open_result` gives the ticket of a successful `open_position` or `none`
for an error dict; `close_ok` tells whether `close_position` of a ticket
returns without an error key. -/
structure EEGateway where
  last_tick : String → Option TickQuote
  symbol_point : String → Option ℚ
  open_result : String → ℤ → ℚ → ℚ → Option ℕ
  close_ok : ℕ → Bool

/-- State of `ExecutionEngine` (`core/execution_engine.py`): the
ticket-keyed position map, the last monitor time and the 10 ms check
interval. -/
structure ExecutionEngine where
  positions : List (ℕ × Position)
  last_check_time : ℚ
  check_interval : ℚ
  deriving DecidableEq

/-- Embedding of `ExecutionEngine.execute_signal`: price at the ask when
`signal_dir == 0` (buy) and at the bid otherwise (sell); virtual SL below
and TP above the entry for a buy, mirrored for a sell; on Gateway success
the position is stored under its ticket. -/
def ExecutionEngine.execute_signal (ee : ExecutionEngine) (gw : EEGateway) (now : ℚ)
    (symbol : String) (signal_dir : ℤ) (position_size : ℚ)
    (sl_points tp_points : ℤ) : Bool × ExecutionEngine :=
  match gw.last_tick symbol with
  | none => (false, ee)
  | some tick =>
    let price := if signal_dir = 0 then tick.ask else tick.bid
    let point := (gw.symbol_point symbol).getD 0.0001
    let sl_price := price + point * (sl_points : ℚ) * (if signal_dir = 0 then -1 else 1)
    let tp_price := price + point * (tp_points : ℚ) * (if signal_dir = 0 then 1 else -1)
    match gw.open_result symbol signal_dir position_size price with
    | none => (false, ee)
    | some ticket =>
      let position : Position :=
        { ticket := ticket, symbol := symbol, type := signal_dir,
          volume := position_size, open_price := price,
          virtual_sl := sl_price, virtual_tp := tp_price, open_time := now }
      (true, { ee with positions := dictInsert ee.positions ticket position })

/-- Loop body of `ExecutionEngine.check_positions` over one map entry:
skip on a missing/error tick, otherwise classify a breach, checking the
stop-loss before the take-profit (long positions read the bid, short
positions the ask). -/
def breachEntry (gw : EEGateway) (tp : ℕ × Position) : Option (ℕ × String) :=
  match gw.last_tick tp.2.symbol with
  | none => none
  | some tick =>
    let current_price := if tp.2.type = 0 then tick.bid else tick.ask
    if tp.2.type = 0 then
      if current_price ≤ tp.2.virtual_sl then some (tp.1, "SL")
      else if tp.2.virtual_tp ≤ current_price then some (tp.1, "TP")
      else none
    else
      if tp.2.virtual_sl ≤ current_price then some (tp.1, "SL")
      else if current_price ≤ tp.2.virtual_tp then some (tp.1, "TP")
      else none

/-- List `positions_to_close` accumulated by
`ExecutionEngine.check_positions` before any closing happens. -/
def positionsToClose (gw : EEGateway) (positions : List (ℕ × Position)) :
    List (ℕ × String) :=
  positions.filterMap (breachEntry gw)

/-- Closing of one ticket in `check_positions`/`close_all_positions`: on
Gateway success the entry is deleted from the map, on failure it stays. -/
def closeTicket (gw : EEGateway) (positions : List (ℕ × Position)) (ticket : ℕ) :
    List (ℕ × Position) :=
  if gw.close_ok ticket then positions.filter (fun q => q.1 ≠ ticket) else positions

/-- Embedding of `ExecutionEngine.check_positions`: rate-limited to
`check_interval`; collects breached positions, then closes each in turn,
and finally records `last_check_time`. -/
def ExecutionEngine.check_positions (ee : ExecutionEngine) (gw : EEGateway) (now : ℚ) :
    ExecutionEngine :=
  if now - ee.last_check_time < ee.check_interval then ee
  else
    { ee with
      positions := (positionsToClose gw ee.positions).foldl
        (fun ps tr => closeTicket gw ps tr.1) ee.positions
      last_check_time := now }

/-- Embedding of `ExecutionEngine.close_all_positions`: iterates the
snapshot `list(self.positions.keys())`, closing each ticket; failures
remain tracked. -/
def ExecutionEngine.close_all_positions (ee : ExecutionEngine) (gw : EEGateway) :
    ExecutionEngine :=
  { ee with positions := (ee.positions.map Prod.fst).foldl (closeTicket gw) ee.positions }

/-- State of `StrategyCoordinator` (`core/strategy_coordinator.py`)
restricted to what `start` touches. -/
structure StrategyCoordinator where
  risk_manager : RiskManager

/-- Embedding of `StrategyCoordinator.start` (lines 45–53): returns False
when the Gateway connect fails; otherwise it calls
`risk_manager.initialize()` but DISCARDS its result and returns True
unconditionally. -/
def StrategyCoordinator.start (sc : StrategyCoordinator) (connect_ok : Bool)
    (account_info : Option AccountInfo) : Bool × StrategyCoordinator :=
  if !connect_ok then (false, sc)
  else
    (true, { sc with risk_manager := ( RiskManager.initialize sc.risk_manager account_info).2 })

/-- Lookup of the key just written by `dictInsert` yields the new value. -/
theorem dictInsert_lookup {β : Type} (l : List (String × β)) (k : String) (v : β) :
    (dictInsert l k v).lookup k = some v := by
  induction l with
  | nil => simp [dictInsert, List.lookup]
  | cons hd tl ih =>
    obtain ⟨k0, v0⟩ := hd
    by_cases hk : k0 = k
    · simp [dictInsert, hk, List.lookup]
    · simp only [dictInsert, if_neg hk, List.lookup]
      have : (k == k0) = false := by
        simpa [beq_iff_eq] using fun h => hk h.symm
      simp [this, ih]

/-- Membership of the binding just written by `dictInsert`. -/
theorem dictInsert_self_mem {κ β : Type} [DecidableEq κ] (l : List (κ × β)) (k : κ) (v : β) :
    (k, v) ∈ dictInsert l k v := by
  induction l with
  | nil => simp [dictInsert]
  | cons hd tl ih =>
    obtain ⟨k0, v0⟩ := hd
    by_cases hk : k0 = k
    · simp [dictInsert, hk]
    · simp only [dictInsert, if_neg hk]
      exact List.mem_cons_of_mem _ ih

/-- Scenario ticks A, B, C, D of the TickBuffer testable property. -/
def tickA : Tick ℚ := ⟨1, 2, 0, 0⟩

def tickB : Tick ℚ := ⟨3, 4, 0, 0⟩

def tickC : Tick ℚ := ⟨5, 6, 0, 0⟩

def tickD : Tick ℚ := ⟨7, 8, 0, 0⟩

/-- Buffer of capacity 3 after adding A, B, C, D in order. -/
def bufferABCD : TickBuffer ℚ :=
  ((((TickBuffer.init ℚ 3).add_tick tickA).add_tick tickB).add_tick tickC).add_tick tickD

/-- Buffer of capacity 5 after adding A, B, C in order (not yet filled). -/
def bufferABC : TickBuffer ℚ :=
  (((TickBuffer.init ℚ 5).add_tick tickA).add_tick tickB).add_tick tickC

/-- Claim C1, evaluated on the code at the failing input: with capacity 3
and ticks A, B, C, D added in order, `get_recent(3)` returns the raw ring
`[D, B, C]` — the most recent 3 ticks in internal storage order, not
arrival order `[B, C, D]` as the spec states; and with capacity 5 and 3
ticks stored, `get_recent(2)` ignores `n` and returns all 3 available
ticks instead of the 2 most recent. -/
theorem claim1_get_recent_wrong_order_and_count :
    bufferABCD.get_recent (some 3) =
      [⟨0, 7, 8, 0, 1, 15/2⟩, ⟨0, 3, 4, 0, 1, 7/2⟩, ⟨0, 5, 6, 0, 1, 11/2⟩] ∧
    bufferABCD.get_recent (some 3) ≠
      [⟨0, 3, 4, 0, 1, 7/2⟩, ⟨0, 5, 6, 0, 1, 11/2⟩, ⟨0, 7, 8, 0, 1, 15/2⟩] ∧
    (bufferABC.get_recent (some 2)).length = 3 := by
  refine ⟨?_, ?_, ?_⟩ <;>
    norm_num [bufferABCD, bufferABC, tickA, tickB, tickC, tickD, TickBuffer.init,
      TickBuffer.add_tick, TickBuffer.get_recent, List.set]

/-- RiskManager built with the constructor defaults of
`core/risk_manager.py` (uninitialized: `initial_equity = 0`). -/
def rmDefault : RiskManager :=
  { max_risk_per_trade := 0.01, max_total_risk := 0.03, max_positions := 5,
    max_drawdown := 0.05, initial_equity := 0, last_check_time := 0,
    min_check_interval := 0.1 }

/-- Coordinator state holding the default RiskManager. -/
def scDefault : StrategyCoordinator := ⟨rmDefault⟩

/-- Claim C7, evaluated on the code at the failing input: with the
Gateway connected but account info unavailable, `RiskManager.initialize`
returns False, yet `StrategyCoordinator.start` still returns True — the
initialization result is discarded, so a successful risk-manager
initialization is not a precondition for `start()` reporting success. -/
theorem claim7_start_ignores_failed_risk_init :
    ( RiskManager.initialize rmDefault none).1 = false ∧
    (scDefault.start true none).1 = true := by
  decide

/-- Position record constructed by a successful `execute_signal` call,
spelled from the price/SL/TP formulas of the source. -/
def executedPosition (gw : EEGateway) (now : ℚ) (symbol : String) (signal_dir : ℤ)
    (position_size : ℚ) (sl_points tp_points : ℤ) (tick : TickQuote) (ticket : ℕ) : Position :=
  { ticket := ticket, symbol := symbol, type := signal_dir,
    volume := position_size,
    open_price := if signal_dir = 0 then tick.ask else tick.bid,
    virtual_sl := (if signal_dir = 0 then tick.ask else tick.bid) +
      (gw.symbol_point symbol).getD 0.0001 * (sl_points : ℚ) *
        (if signal_dir = 0 then -1 else 1),
    virtual_tp := (if signal_dir = 0 then tick.ask else tick.bid) +
      (gw.symbol_point symbol).getD 0.0001 * (tp_points : ℚ) *
        (if signal_dir = 0 then 1 else -1),
    open_time := now }

/-- Postcondition of a successful `execute_signal` call: it reports
success and stores, under the returned ticket, a position whose entry is
the ask with SL below / TP above entry when `signal_dir = 0`, and whose
entry is the bid with SL above / TP below entry for any nonzero
`signal_dir`. -/
def ExecSignalSpec (ee : ExecutionEngine) (gw : EEGateway) (now : ℚ) (symbol : String)
    (signal_dir : ℤ) (position_size : ℚ) (sl_points tp_points : ℤ)
    (tick : TickQuote) (ticket : ℕ) : Prop :=
  (ee.execute_signal gw now symbol signal_dir position_size sl_points tp_points).1 = true ∧
  ∃ p : Position,
    (ticket, p) ∈ (ee.execute_signal gw now symbol signal_dir position_size sl_points tp_points).2.positions ∧
    (signal_dir = 0 →
      p.open_price = tick.ask ∧ p.virtual_sl < p.open_price ∧ p.open_price < p.virtual_tp) ∧
    (signal_dir ≠ 0 →
      p.open_price = tick.bid ∧ p.open_price < p.virtual_sl ∧ p.virtual_tp < p.open_price)

/-- Claim C8: `execute_signal` treats direction 0 as a buy (entry at the
ask, virtual SL below entry, virtual TP above) and every nonzero
direction — including +1, the Signal convention for buy — as a sell
(entry at the bid, virtual SL above entry, virtual TP below). -/
theorem claim8_execute_signal_direction_convention
    (ee : ExecutionEngine) (gw : EEGateway) (now : ℚ) (symbol : String) (signal_dir : ℤ)
    (position_size : ℚ) (sl_points tp_points : ℤ) (tick : TickQuote) (ticket : ℕ)
    (htick : gw.last_tick symbol = some tick)
    (hopen : gw.open_result symbol signal_dir position_size
        (if signal_dir = 0 then tick.ask else tick.bid) = some ticket)
    (hpoint : 0 < (gw.symbol_point symbol).getD 0.0001)
    (hsl : 0 < sl_points) (htp : 0 < tp_points) :
    ExecSignalSpec ee gw now symbol signal_dir position_size sl_points tp_points tick ticket := by
  have hslq : (0 : ℚ) < (sl_points : ℚ) := by exact_mod_cast hsl
  have htpq : (0 : ℚ) < (tp_points : ℚ) := by exact_mod_cast htp
  have hres1 : (ee.execute_signal gw now symbol signal_dir position_size sl_points tp_points).1 =
      true := by
    simp only [ExecutionEngine.execute_signal, htick, hopen]
  have hres2 : (ee.execute_signal gw now symbol signal_dir position_size sl_points tp_points).2.positions =
      dictInsert ee.positions ticket
        (executedPosition gw now symbol signal_dir position_size sl_points tp_points tick ticket) := by
    simp only [ExecutionEngine.execute_signal, htick, hopen, executedPosition]
  refine ⟨hres1, ?_⟩
  refine ⟨executedPosition gw now symbol signal_dir position_size sl_points tp_points tick ticket,
      ?_, ?_, ?_⟩
  · rw [hres2]
    exact dictInsert_self_mem _ _ _
  · intro hd
    simp only [executedPosition, hd, ite_true]
    refine ⟨trivial, ?_, ?_⟩ <;> nlinarith [mul_pos hpoint hslq, mul_pos hpoint htpq]
  · intro hd
    simp only [executedPosition, if_neg hd]
    refine ⟨trivial, ?_, ?_⟩ <;> nlinarith [mul_pos hpoint hslq, mul_pos hpoint htpq]

/-- Execution engine with an empty position map. -/
def eeEmpty : ExecutionEngine := { positions := [], last_check_time := 0, check_interval := 0.01 }

/-- Concrete Gateway for the execution-engine witnesses: bid 100, ask
101, point 0.0001, orders get ticket 7, closes succeed. -/
def gwExec : EEGateway :=
  { last_tick := fun _ => some ⟨100, 101⟩
    symbol_point := fun _ => some 0.0001
    open_result := fun _ _ _ _ => some 7
    close_ok := fun _ => true }

/-- Witness for claim C8 at direction 0 (buy) and direction 1 (sell). -/
theorem claim8_witness :
    ExecSignalSpec eeEmpty gwExec 0 "EURUSD" 0 1 50 75 ⟨100, 101⟩ 7 ∧
    ExecSignalSpec eeEmpty gwExec 0 "EURUSD" 1 1 50 75 ⟨100, 101⟩ 7 :=
  ⟨claim8_execute_signal_direction_convention eeEmpty gwExec 0 "EURUSD" 0 1 50 75 ⟨100, 101⟩ 7
      rfl rfl (by norm_num [gwExec]) (by norm_num) (by norm_num),
   claim8_execute_signal_direction_convention eeEmpty gwExec 0 "EURUSD" 1 1 50 75 ⟨100, 101⟩ 7
      rfl rfl (by norm_num [gwExec]) (by norm_num) (by norm_num)⟩

/-- Closing one ticket only ever filters the map: every surviving entry
was already present. -/
theorem closeTicket_subset (gw : EEGateway) (ps : List (ℕ × Position)) (t : ℕ) :
    ∀ q ∈ closeTicket gw ps t, q ∈ ps := by
  intro q hq
  unfold closeTicket at hq
  split at hq
  · exact (List.mem_filter.mp hq).1
  · exact hq

/-- Entries surviving a whole closing pass were already present. -/
theorem foldl_closeTicket_subset (gw : EEGateway) (l : List ℕ) :
    ∀ ps : List (ℕ × Position), ∀ q ∈ l.foldl (closeTicket gw) ps, q ∈ ps := by
  induction l with
  | nil => intro ps q hq; simpa using hq
  | cons a as ih =>
    intro ps q hq
    exact closeTicket_subset gw ps a q (ih (closeTicket gw ps a) q hq)

/-- If a ticket in the work list closes successfully, no entry keyed by
it survives the closing pass. -/
theorem foldl_closeTicket_removes (gw : EEGateway) (t : ℕ) (hok : gw.close_ok t = true)
    (l : List ℕ) :
    ∀ ps : List (ℕ × Position), t ∈ l → ∀ q ∈ l.foldl (closeTicket gw) ps, q.1 ≠ t := by
  induction l with
  | nil => intro ps ht; exact absurd ht (List.not_mem_nil t)
  | cons a as ih =>
    intro ps ht q hq
    rcases List.mem_cons.mp ht with rfl | hta
    · by_cases hmem : t ∈ as
      · exact ih (closeTicket gw ps t) hmem q hq
      · have hq' : q ∈ closeTicket gw ps t := foldl_closeTicket_subset gw as _ q hq
        unfold closeTicket at hq'
        rw [if_pos hok] at hq'
        have := (List.mem_filter.mp hq').2
        simpa using this
    · exact ih (closeTicket gw ps a) hta q hq

/-- An entry whose close fails is never removed by a closing pass. -/
theorem foldl_closeTicket_keeps (gw : EEGateway) (q : ℕ × Position)
    (hfail : gw.close_ok q.1 = false) (l : List ℕ) :
    ∀ ps : List (ℕ × Position), q ∈ ps → q ∈ l.foldl (closeTicket gw) ps := by
  induction l with
  | nil => intro ps hq; simpa using hq
  | cons a as ih =>
    intro ps hq
    refine ih (closeTicket gw ps a) ?_
    unfold closeTicket
    split
    · refine List.mem_filter.mpr ⟨hq, ?_⟩
      have : q.1 ≠ a := by
        intro he
        rw [he] at hfail
        simp_all
      simpa using this
    · exact hq

/-- The key reported by `breachEntry` is the key of the examined entry. -/
theorem breachEntry_key (gw : EEGateway) (tp : ℕ × Position) (out : ℕ × String)
    (h : breachEntry gw tp = some out) : out.1 = tp.1 := by
  unfold breachEntry at h
  split at h
  · exact absurd h (by simp)
  · dsimp only at h
    split_ifs at h <;> (cases Option.some.inj h; rfl)

/-- A breached long position (bid at or under the virtual SL, or at or
above the virtual TP) is put on the closing list. -/
theorem breachEntry_long (gw : EEGateway) (t : ℕ) (p : Position) (tick : TickQuote)
    (htick : gw.last_tick p.symbol = some tick) (htype : p.type = 0)
    (hbreach : tick.bid ≤ p.virtual_sl ∨ p.virtual_tp ≤ tick.bid) :
    breachEntry gw (t, p) = some (t, "SL") ∨ breachEntry gw (t, p) = some (t, "TP") := by
  unfold breachEntry
  rw [htick]
  simp only [htype, ite_true]
  rcases hbreach with h | h
  · left; rw [if_pos h]
  · by_cases hsl : tick.bid ≤ p.virtual_sl
    · left; rw [if_pos hsl]
    · right; rw [if_neg hsl, if_pos h]

/-- A breached short position (ask at or above the virtual SL, or at or
under the virtual TP) is put on the closing list. -/
theorem breachEntry_short (gw : EEGateway) (t : ℕ) (p : Position) (tick : TickQuote)
    (htick : gw.last_tick p.symbol = some tick) (htype : p.type ≠ 0)
    (hbreach : p.virtual_sl ≤ tick.ask ∨ tick.ask ≤ p.virtual_tp) :
    breachEntry gw (t, p) = some (t, "SL") ∨ breachEntry gw (t, p) = some (t, "TP") := by
  unfold breachEntry
  rw [htick]
  simp only [htype, ite_false, if_neg htype]
  rcases hbreach with h | h
  · left; rw [if_pos h]
  · by_cases hsl : p.virtual_sl ≤ tick.ask
    · left; rw [if_pos hsl]
    · right; rw [if_neg hsl, if_pos h]

/-- Positions list after a non-rate-limited `check_positions` cycle. -/
theorem check_positions_val (ee : ExecutionEngine) (gw : EEGateway) (now : ℚ)
    (hrate : ¬(now - ee.last_check_time < ee.check_interval)) :
    (ee.check_positions gw now).positions =
      ((positionsToClose gw ee.positions).map Prod.fst).foldl (closeTicket gw) ee.positions := by
  unfold ExecutionEngine.check_positions
  rw [if_neg hrate, List.foldl_map]

/-- Claim C2: on any monitoring cycle that is not rate-limited, a tracked
long position whose current bid is at or under its virtual stop-loss (or
at or above its virtual take-profit) is closed — removed from the
position map after a successful Gateway close; a short position is
handled with the mirrored inequalities on the current ask. -/
theorem claim2_monitor_closes_breached_positions
    (ee : ExecutionEngine) (gw : EEGateway) (now : ℚ) (t : ℕ) (p : Position) (tick : TickQuote)
    (hrate : ¬(now - ee.last_check_time < ee.check_interval))
    (hmem : (t, p) ∈ ee.positions)
    (htick : gw.last_tick p.symbol = some tick)
    (hclose : gw.close_ok t = true) :
    (p.type = 0 → p.virtual_sl < p.open_price →
      (tick.bid ≤ p.virtual_sl ∨ p.virtual_tp ≤ tick.bid) →
      t ∉ ((ee.check_positions gw now).positions.map Prod.fst)) ∧
    (p.type ≠ 0 → p.open_price < p.virtual_sl →
      (p.virtual_sl ≤ tick.ask ∨ tick.ask ≤ p.virtual_tp) →
      t ∉ ((ee.check_positions gw now).positions.map Prod.fst)) := by
  have main : (breachEntry gw (t, p) = some (t, "SL") ∨ breachEntry gw (t, p) = some (t, "TP")) →
      t ∉ ((ee.check_positions gw now).positions.map Prod.fst) := by
    intro hbr ht
    have htcl : t ∈ (positionsToClose gw ee.positions).map Prod.fst := by
      rcases hbr with h | h
      · exact List.mem_map.mpr ⟨(t, "SL"), List.mem_filterMap.mpr ⟨(t, p), hmem, h⟩, rfl⟩
      · exact List.mem_map.mpr ⟨(t, "TP"), List.mem_filterMap.mpr ⟨(t, p), hmem, h⟩, rfl⟩
    rw [check_positions_val ee gw now hrate] at ht
    obtain ⟨q, hq, hq1⟩ := List.mem_map.mp ht
    exact foldl_closeTicket_removes gw t hclose _ ee.positions htcl q hq hq1
  constructor
  · intro htype _ hbreach
    exact main (breachEntry_long gw t p tick htick htype hbreach)
  · intro htype _ hbreach
    exact main (breachEntry_short gw t p tick htick htype hbreach)

/-- In a map whose keys are distinct, a key determines its entry. -/
theorem keys_nodup_unique {t : ℕ} {p q : Position} :
    ∀ {ps : List (ℕ × Position)}, (ps.map Prod.fst).Nodup →
      (t, p) ∈ ps → (t, q) ∈ ps → p = q := by
  intro ps
  induction ps with
  | nil => intro _ h1; exact absurd h1 (List.not_mem_nil _)
  | cons hd tl ih =>
    intro hnodup h1 h2
    rw [show List.map Prod.fst (hd :: tl) = hd.1 :: List.map Prod.fst tl from rfl,
      List.nodup_cons] at hnodup
    rcases List.mem_cons.mp h1 with he1 | ht1
    · rcases List.mem_cons.mp h2 with he2 | ht2
      · rw [← he1] at he2
        exact congrArg Prod.snd he2.symm
      · exfalso
        apply hnodup.1
        rw [show hd.1 = t from by rw [← he1]]
        exact List.mem_map.mpr ⟨(t, q), ht2, rfl⟩
    · rcases List.mem_cons.mp h2 with he2 | ht2
      · exfalso
        apply hnodup.1
        rw [show hd.1 = t from by rw [← he2]]
        exact List.mem_map.mpr ⟨(t, p), ht1, rfl⟩
      · exact ih hnodup.2 ht1 ht2

/-- Claim C9: when both the virtual stop-loss and the virtual take-profit
conditions hold for a tracked position at the current price, the
stop-loss branch is evaluated first: the position goes on the closing
list with reason "SL", and never with reason "TP". -/
theorem claim9_stop_loss_precedes_take_profit
    (ee : ExecutionEngine) (gw : EEGateway) (t : ℕ) (p : Position) (tick : TickQuote)
    (hnodup : (ee.positions.map Prod.fst).Nodup)
    (hmem : (t, p) ∈ ee.positions)
    (htick : gw.last_tick p.symbol = some tick)
    (hboth : if p.type = 0 then tick.bid ≤ p.virtual_sl ∧ p.virtual_tp ≤ tick.bid
             else p.virtual_sl ≤ tick.ask ∧ tick.ask ≤ p.virtual_tp) :
    (t, "SL") ∈ positionsToClose gw ee.positions ∧
    (t, "TP") ∉ positionsToClose gw ee.positions := by
  have hsl : breachEntry gw (t, p) = some (t, "SL") := by
    unfold breachEntry
    rw [htick]
    by_cases htype : p.type = 0
    · rw [if_pos htype] at hboth
      simp only [htype, ite_true]
      rw [if_pos hboth.1]
    · rw [if_neg htype] at hboth
      simp only [htype, ite_false, if_neg htype]
      rw [if_pos hboth.1]
  constructor
  · exact List.mem_filterMap.mpr ⟨(t, p), hmem, hsl⟩
  · intro hmem'
    obtain ⟨uq, huq, hbe⟩ := List.mem_filterMap.mp hmem'
    obtain ⟨u, q⟩ := uq
    have hu : u = t := by simpa using (breachEntry_key gw (u, q) (t, "TP") hbe).symm
    subst hu
    have hq : q = p := keys_nodup_unique hnodup huq hmem
    rw [hq, hsl] at hbe
    simp at hbe

/-- Positions list after `close_all_positions`, unfolded. -/
theorem close_all_val (ee : ExecutionEngine) (gw : EEGateway) :
    (ee.close_all_positions gw).positions =
      (ee.positions.map Prod.fst).foldl (closeTicket gw) ee.positions := rfl

/-- Claim C6: when the Gateway closes every tracked ticket successfully,
one `close_all_positions` pass empties the map and a second consecutive
call changes nothing (idempotence); and a position whose Gateway close
fails remains tracked for a subsequent call. -/
theorem claim6_close_all_idempotent (gw : EEGateway) (ee : ExecutionEngine) :
    ((∀ t ∈ ee.positions.map Prod.fst, gw.close_ok t = true) →
      (ee.close_all_positions gw).positions = [] ∧
      (ee.close_all_positions gw).close_all_positions gw = ee.close_all_positions gw) ∧
    (∀ q ∈ ee.positions, gw.close_ok q.1 = false →
      q ∈ (ee.close_all_positions gw).positions) := by
  constructor
  · intro hall
    have hempty : (ee.close_all_positions gw).positions = [] := by
      rw [close_all_val, List.eq_nil_iff_forall_not_mem]
      intro q hq
      have hq_in : q ∈ ee.positions :=
        foldl_closeTicket_subset gw (ee.positions.map Prod.fst) ee.positions q hq
      have hkey : q.1 ∈ ee.positions.map Prod.fst := List.mem_map.mpr ⟨q, hq_in, rfl⟩
      exact foldl_closeTicket_removes gw q.1 (hall q.1 hkey) (ee.positions.map Prod.fst)
        ee.positions hkey q hq rfl
    refine ⟨hempty, ?_⟩
    have hfix : ∀ Y : ExecutionEngine, Y.positions = [] → Y.close_all_positions gw = Y := by
      intro Y hY
      show { Y with positions := (Y.positions.map Prod.fst).foldl (closeTicket gw) Y.positions } = Y
      rw [hY, show List.foldl (closeTicket gw) ([] : List (ℕ × Position))
        (List.map Prod.fst ([] : List (ℕ × Position))) = [] from rfl, ← hY]
    exact hfix (ee.close_all_positions gw) hempty
  · intro q hq hfail
    rw [close_all_val]
    exact foldl_closeTicket_keeps gw q hfail (ee.positions.map Prod.fst) ee.positions hq

/-- Long position tracked under ticket 1: entry 100, virtual SL 99,
virtual TP 102, on symbol "L". -/
def posLong : Position :=
  { ticket := 1, symbol := "L", type := 0, volume := 1, open_price := 100,
    virtual_sl := 99, virtual_tp := 102, open_time := 0 }

/-- Short position tracked under ticket 2: entry 100, virtual SL 101,
virtual TP 97, on symbol "S". -/
def posShort : Position :=
  { ticket := 2, symbol := "S", type := 1, volume := 1, open_price := 100,
    virtual_sl := 101, virtual_tp := 97, open_time := 0 }

/-- Engine tracking the long and the short position. -/
def eeMon : ExecutionEngine :=
  { positions := [(1, posLong), (2, posShort)], last_check_time := 0, check_interval := 0.01 }

/-- Gateway for the monitor witness: symbol "L" quotes bid 98 (under the
long SL), symbol "S" quotes ask 102 (above the short SL); closes succeed. -/
def gwMon : EEGateway :=
  { last_tick := fun s => if s = "L" then some ⟨98, 99⟩ else some ⟨101, 102⟩
    symbol_point := fun _ => none
    open_result := fun _ _ _ _ => none
    close_ok := fun _ => true }

/-- Witness for claim C2: both the breached long and the breached short
position are removed by the monitoring cycle. -/
theorem claim2_witness :
    (1 : ℕ) ∉ ((eeMon.check_positions gwMon 1).positions.map Prod.fst) ∧
    (2 : ℕ) ∉ ((eeMon.check_positions gwMon 1).positions.map Prod.fst) := by
  constructor
  · exact (claim2_monitor_closes_breached_positions eeMon gwMon 1 1 posLong ⟨98, 99⟩
      (by norm_num [eeMon]) (by simp [eeMon]) (by simp [gwMon, posLong]) rfl).1
      rfl (by norm_num [posLong]) (Or.inl (by norm_num [posLong]))
  · exact (claim2_monitor_closes_breached_positions eeMon gwMon 1 2 posShort ⟨101, 102⟩
      (by norm_num [eeMon]) (by simp [eeMon]) (by simp [gwMon, posShort]) rfl).2
      (by norm_num [posShort]) (by norm_num [posShort]) (Or.inl (by norm_num [posShort]))

/-- Long position whose SL and TP conditions hold simultaneously at bid
98: SL 99 above the bid and TP 97 under it. -/
def posBoth : Position :=
  { ticket := 3, symbol := "L", type := 0, volume := 1, open_price := 100,
    virtual_sl := 99, virtual_tp := 97, open_time := 0 }

/-- Engine tracking only the doubly-breached long position. -/
def eeBoth : ExecutionEngine :=
  { positions := [(3, posBoth)], last_check_time := 0, check_interval := 0.01 }

/-- Witness for claim C9: the doubly-breached position is queued with
reason "SL" and not with reason "TP". -/
theorem claim9_witness :
    (3, "SL") ∈ positionsToClose gwMon eeBoth.positions ∧
    (3, "TP") ∉ positionsToClose gwMon eeBoth.positions :=
  claim9_stop_loss_precedes_take_profit eeBoth gwMon 3 posBoth ⟨98, 99⟩
    (by simp [eeBoth]) (by simp [eeBoth]) (by simp [gwMon, posBoth])
    (by norm_num [posBoth])

/-- Gateway whose closes fail exactly for ticket 2. -/
def gwFailTwo : EEGateway :=
  { last_tick := fun _ => none
    symbol_point := fun _ => none
    open_result := fun _ _ _ _ => none
    close_ok := fun t => decide (t = 1) }

/-- Witness for claim C6: with every close succeeding the first pass
empties the map and the second changes nothing; with the close of ticket
2 failing, that position stays tracked. -/
theorem claim6_witness :
    ((eeMon.close_all_positions gwMon).positions = [] ∧
     (eeMon.close_all_positions gwMon).close_all_positions gwMon =
       eeMon.close_all_positions gwMon) ∧
    (2, posShort) ∈ (eeMon.close_all_positions gwFailTwo).positions :=
  ⟨(claim6_close_all_idempotent gwMon eeMon).1 (by intro t _; rfl),
   (claim6_close_all_idempotent gwFailTwo eeMon).2 (2, posShort) (by simp [eeMon]) (by rfl)⟩

/-- Claim C3: with the rate limit passed and the position-count, margin
and total-risk constraints satisfied, `can_open_position` accepts exactly
when the drawdown `1 − current_equity / initial_equity` does not exceed
`max_drawdown`; in particular it rejects whenever the drawdown bound is
violated. -/
theorem claim3_can_open_drawdown_gate
    (rm : RiskManager) (gw : RMGateway) (symbol : String) (now : ℚ)
    (positions : List GPosition) (ai : AccountInfo)
    (hrate : ¬(now - rm.last_check_time < rm.min_check_interval))
    (hpos : gw.get_positions = some positions)
    (hcount : (positions.filter (fun p => p.symbol = symbol)).length < 2)
    (hlen : positions.length < rm.max_positions)
    (hacc : gw.get_account_info = some ai)
    (hinit : 0 < rm.initial_equity)
    (hmargin1 : 0 < ai.margin → 2 ≤ ai.free_margin / ai.margin)
    (hmargin2 : ¬(0 < ai.margin) → 0 < ai.free_margin)
    (heq : 0 < ai.equity)
    (htr : (positions.map (fun p => |p.profit|)).sum / ai.equity ≤ rm.max_total_risk) :
    (rm.can_open_position gw symbol now).1 = true ↔
      1 - ai.equity / rm.initial_equity ≤ rm.max_drawdown := by
  unfold RiskManager.can_open_position
  rw [if_neg hrate, hpos]
  simp only []
  rw [if_neg (not_le.mpr hcount), if_neg (not_le.mpr hlen), hacc]
  simp only []
  rw [if_neg (ne_of_gt hinit)]
  by_cases hdd : rm.max_drawdown < 1 - ai.equity / rm.initial_equity
  · rw [if_pos hdd]
    simp only [Bool.false_eq_true, false_iff, not_le]
    exact hdd
  · rw [if_neg hdd]
    have hm1 : ¬(0 < ai.margin ∧ ai.free_margin / ai.margin < 2) := by
      rintro ⟨h1, h2⟩
      exact absurd (hmargin1 h1) (not_le.mpr h2)
    have hm2 : ¬(¬(0 < ai.margin) ∧ ai.free_margin ≤ 0) := by
      rintro ⟨h1, h2⟩
      exact absurd (hmargin2 h1) (not_lt.mpr h2)
    rw [if_neg hm1, if_neg hm2, if_neg (ne_of_gt heq), if_neg (not_lt.mpr htr)]
    simp only [true_iff]
    exact not_lt.mp hdd

/-- Account with equity 750, no used margin, ample free margin. -/
def aiDrawdown : AccountInfo :=
  { balance := 750, equity := 750, margin := 0, free_margin := 750, profit := 0 }

/-- Gateway reporting no open positions and the drawn-down account. -/
def gwDrawdown : RMGateway :=
  { get_positions := some [], get_account_info := some aiDrawdown }

/-- RiskManager initialized at equity 1000 with max_drawdown 0.2. -/
def rmDrawdown : RiskManager :=
  { max_risk_per_trade := 0.01, max_total_risk := 0.03, max_positions := 5,
    max_drawdown := 0.2, initial_equity := 1000, last_check_time := 0,
    min_check_interval := 0.1 }

/-- Witness for claim C3, at the spec scenario: initial equity 1000,
current equity 750, max_drawdown 0.2 — the drawdown 0.25 exceeds the
bound, so `can_open_position` returns false. -/
theorem claim3_witness :
    (rmDrawdown.can_open_position gwDrawdown "EURUSD" 1).1 = false := by
  have h := claim3_can_open_drawdown_gate rmDrawdown gwDrawdown "EURUSD" 1 [] aiDrawdown
    (by norm_num [rmDrawdown])
    rfl
    (by norm_num)
    (by norm_num [rmDrawdown])
    rfl
    (by norm_num [rmDrawdown])
    (by norm_num [aiDrawdown])
    (by norm_num [aiDrawdown])
    (by norm_num [aiDrawdown])
    (by norm_num [aiDrawdown, rmDrawdown])
  have hne : ¬((rmDrawdown.can_open_position gwDrawdown "EURUSD" 1).1 = true) := by
    rw [h]
    norm_num [aiDrawdown, rmDrawdown]
  exact Bool.eq_false_iff.mpr (by simpa using hne)

/-- Claim C10: `can_open_position` is fail-closed and total — in the
uninitialized state (`initial_equity = 0`, where the drawdown computation
divides by zero and Python's caught ZeroDivisionError yields False) and
whenever the Gateway returns an error for positions or a falsy account
dict, it returns false rather than raising. -/
theorem claim10_can_open_fail_closed
    (rm : RiskManager) (gw : RMGateway) (symbol : String) (now : ℚ)
    (h : rm.initial_equity = 0 ∨ gw.get_positions = none ∨ gw.get_account_info = none) :
    (rm.can_open_position gw symbol now).1 = false := by
  unfold RiskManager.can_open_position
  by_cases hrate : now - rm.last_check_time < rm.min_check_interval
  · rw [if_pos hrate]
  · rw [if_neg hrate]
    rcases h with h0 | hp | ha
    · cases hpos : gw.get_positions with
      | none => rfl
      | some positions =>
        simp only []
        by_cases hc : 2 ≤ (positions.filter (fun p => p.symbol = symbol)).length
        · rw [if_pos hc]
        · rw [if_neg hc]
          by_cases hl : rm.max_positions ≤ positions.length
          · rw [if_pos hl]
          · rw [if_neg hl]
            cases hai : gw.get_account_info with
            | none => rfl
            | some ai =>
              simp only []
              rw [if_pos h0]
    · rw [hp]
    · cases hpos : gw.get_positions with
      | none => rfl
      | some positions =>
        simp only []
        by_cases hc : 2 ≤ (positions.filter (fun p => p.symbol = symbol)).length
        · rw [if_pos hc]
        · rw [if_neg hc]
          by_cases hl : rm.max_positions ≤ positions.length
          · rw [if_pos hl]
          · rw [if_neg hl]
            rw [ha]

/-- Gateway with an error positions response and a falsy account dict. -/
def gwErr : RMGateway := { get_positions := none, get_account_info := none }

/-- Gateway with healthy responses (used against the uninitialized
manager). -/
def gwOkEmpty : RMGateway :=
  { get_positions := some []
    get_account_info := some { balance := 1000, equity := 1000, margin := 0,
                               free_margin := 1000, profit := 0 } }

/-- Witness for claim C10: false in the uninitialized state
(division-by-zero path) and false on a Gateway error. -/
theorem claim10_witness :
    (rmDefault.can_open_position gwOkEmpty "EURUSD" 1).1 = false ∧
    (rmDrawdown.can_open_position gwErr "EURUSD" 1).1 = false :=
  ⟨claim10_can_open_fail_closed rmDefault gwOkEmpty "EURUSD" 1 (Or.inl rfl),
   claim10_can_open_fail_closed rmDrawdown gwErr "EURUSD" 1 (Or.inr (Or.inl rfl))⟩

/-- Claim C5: for any window size of at least 1 (the configured values
are 10 or 20), `calculate_features` returns the empty feature dict
exactly when `get_recent(window_size * 2)` yields fewer than
`window_size` ticks, and a non-empty one otherwise — it never fabricates
features from a partial window nor an empty dict from a full one. -/
theorem claim5_features_empty_iff_insufficient
    (fg : FeatureGenerator) (buf : TickBuffer ℝ) (_hw : 0 < fg.window_size) :
    (fg.calculate_features buf = [] ↔
      (buf.get_recent (some (fg.window_size * 2))).length < fg.window_size) := by
  unfold FeatureGenerator.calculate_features
  by_cases h : (buf.get_recent (some (fg.window_size * 2))).length < fg.window_size
  · rw [if_pos h]
    simp [h]
  · rw [if_neg h]
    simp [h]

/-- Feature generator with window size 2. -/
def fgTwo : FeatureGenerator := { window_size := 2 }

/-- Witness for claim C5 at window size 2 on an empty buffer of
capacity 5. -/
theorem claim5_witness :
    (fgTwo.calculate_features (TickBuffer.init ℝ 5) = [] ↔
      ((TickBuffer.init ℝ 5).get_recent (some (fgTwo.window_size * 2))).length <
        fgTwo.window_size) :=
  claim5_features_empty_iff_insufficient fgTwo (TickBuffer.init ℝ 5) (by norm_num [fgTwo])
/-- The evaluation body either returns a neutral signal with the state
unchanged, or records `last_signal_time[symbol] = timestamp / 1000` as
its only state change. -/
theorem evaluate_state_cases (sg : SignalGenerator) (symbol : String)
    (features : List (String × ℝ)) (timestamp : ℝ) :
    ((sg.evaluate symbol features timestamp).1.direction = 0 ∧
      (sg.evaluate symbol features timestamp).2 = sg) ∨
    (sg.evaluate symbol features timestamp).2 =
      { sg with last_signal_time :=
          dictInsert sg.last_signal_time symbol (timestamp / 1000) } := by
  unfold SignalGenerator.evaluate
  dsimp only
  split_ifs <;> simp [SignalGenerator.create_neutral_signal]

/-- A `generate_signal` call either returns a neutral signal with the
state unchanged, or records `last_signal_time[symbol] = timestamp /
1000` as its only state change. -/
theorem generate_signal_state_cases (sg : SignalGenerator) (symbol : String)
    (features : List (String × ℝ)) (timestamp : ℝ) :
    ((sg.generate_signal symbol features timestamp).1.direction = 0 ∧
      (sg.generate_signal symbol features timestamp).2 = sg) ∨
    (sg.generate_signal symbol features timestamp).2 =
      { sg with last_signal_time :=
          dictInsert sg.last_signal_time symbol (timestamp / 1000) } := by
  unfold SignalGenerator.generate_signal
  by_cases hf : features.isEmpty
  · rw [if_pos hf]
    left
    exact ⟨rfl, rfl⟩
  · rw [if_neg hf]
    cases hlook : List.lookup symbol sg.last_signal_time with
    | none => exact evaluate_state_cases sg symbol features timestamp
    | some last =>
      dsimp only
      by_cases htime : timestamp / 1000 - last < sg.min_signal_interval
      · rw [if_pos htime]
        left
        exact ⟨rfl, rfl⟩
      · rw [if_neg htime]
        exact evaluate_state_cases sg symbol features timestamp

/-- Claim C4, amended: when a `generate_signal` call actually emits a
directional signal at time `t1`, any later call for the same instrument
within `min_signal_interval` (timestamps in milliseconds, compared in
seconds) returns a neutral Signal carrying its own features unchanged and
leaves the state untouched; a call with empty features likewise returns a
neutral Signal. -/
theorem claim4_amended_debounce_after_emit (sg : SignalGenerator) (symbol : String)
    (f1 f2 : List (String × ℝ)) (t1 t2 : ℝ)
    (h1 : (sg.generate_signal symbol f1 t1).1.direction ≠ 0)
    (h2 : t2 / 1000 - t1 / 1000 < sg.min_signal_interval) :
    (((sg.generate_signal symbol f1 t1).2).generate_signal symbol f2 t2).1 =
      SignalGenerator.create_neutral_signal symbol t2 f2 ∧
    (((sg.generate_signal symbol f1 t1).2).generate_signal symbol f2 t2).2 =
      (sg.generate_signal symbol f1 t1).2 ∧
    (sg.generate_signal symbol [] t1).1 =
      SignalGenerator.create_neutral_signal symbol t1 [] := by
  rcases generate_signal_state_cases sg symbol f1 t1 with ⟨hd, _⟩ | hst
  · exact absurd hd h1
  · have hcall2 : ((sg.generate_signal symbol f1 t1).2).generate_signal symbol f2 t2 =
        (SignalGenerator.create_neutral_signal symbol t2 f2,
          (sg.generate_signal symbol f1 t1).2) := by
      rw [hst]
      unfold SignalGenerator.generate_signal
      by_cases hf2 : f2.isEmpty
      · rw [if_pos hf2]
      · dsimp only
        rw [if_neg hf2, dictInsert_lookup]
        dsimp only
        rw [if_pos h2]
    refine ⟨by rw [hcall2], by rw [hcall2], rfl⟩

/-- Fresh signal generator with the constructor defaults of
`core/signal_generator.py`: threshold 0.1, no recorded signal times,
minimum signal interval 0.01 s. -/
def sgNew : SignalGenerator :=
  { threshold := 0.1, last_signal_time := [], min_signal_interval := 0.01 }

/-- Feature dict driving an emission through the microstructure component
alone: extreme volatility shrinks the dynamic threshold to 0.02 while
tick_pattern and trade_sign push the combined strength to 0.05. -/
def fvBurst : List (String × ℝ) :=
  [("volatility", 10), ("tick_pattern", 1), ("trade_sign", 1)]

/-- On a fresh state, `generate_signal` with the burst features emits
direction 1 at any timestamp. -/
theorem generate_signal_fvBurst_emits (t : ℝ) :
    (sgNew.generate_signal "EURUSD" fvBurst t).1.direction = 1 := by
  have hprice : SignalGenerator.calculate_price_signal fvBurst = 0 := by
    unfold SignalGenerator.calculate_price_signal
    simp [fmem, fvBurst, List.lookup]
  have hvol : SignalGenerator.calculate_volume_signal fvBurst = 0 := by
    unfold SignalGenerator.calculate_volume_signal
    simp [fmem, fvBurst, List.lookup]
  have hmom : SignalGenerator.calculate_momentum_signal fvBurst = 0 := by
    unfold SignalGenerator.calculate_momentum_signal
    simp [fmem, fvBurst, List.lookup, npClip]
  have hmicro : SignalGenerator.calculate_microstructure_signal fvBurst = 1 := by
    unfold SignalGenerator.calculate_microstructure_signal
    simp [fmem, fget, fvBurst, List.lookup, npClip]
    norm_num [min_def, max_def]
  have hlook : List.lookup "EURUSD" sgNew.last_signal_time = none := rfl
  unfold SignalGenerator.generate_signal
  rw [if_neg (by simp [fvBurst]), hlook]
  unfold SignalGenerator.evaluate
  rw [hprice, hvol, hmom, hmicro]
  norm_num [fmem, fget, fvBurst, List.lookup, sgNew, min_def, max_def, abs_of_pos]

/-- Claim C4 counterexample: a neutral first call does not record a
last-signal time, so a second call 5 ms later — within the 10 ms minimum
signal interval — still emits a directional signal; the claim's
"regardless of the feature values" debouncing fails on the code. -/
theorem claim4_counterexample :
    (sgNew.generate_signal "EURUSD" [] 0).1.direction = 0 ∧
    (sgNew.generate_signal "EURUSD" [] 0).2 = sgNew ∧
    (5 : ℝ) / 1000 - 0 / 1000 < sgNew.min_signal_interval ∧
    (((sgNew.generate_signal "EURUSD" [] 0).2).generate_signal "EURUSD" fvBurst 5).1.direction
      = 1 := by
  refine ⟨rfl, rfl, by norm_num [sgNew], ?_⟩
  exact generate_signal_fvBurst_emits 5

/-- Witness for the amended claim C4: after the emitting call at t1 = 0
ms, the call at t2 = 5 ms (within the 10 ms interval) is neutral with its
features preserved, and an empty-features call is neutral. -/
theorem claim4_witness :
    (((sgNew.generate_signal "EURUSD" fvBurst 0).2).generate_signal "EURUSD" fvBurst 5).1 =
      SignalGenerator.create_neutral_signal "EURUSD" 5 fvBurst ∧
    (((sgNew.generate_signal "EURUSD" fvBurst 0).2).generate_signal "EURUSD" fvBurst 5).2 =
      (sgNew.generate_signal "EURUSD" fvBurst 0).2 ∧
    (sgNew.generate_signal "EURUSD" [] 0).1 =
      SignalGenerator.create_neutral_signal "EURUSD" 0 [] :=
  claim4_amended_debounce_after_emit sgNew "EURUSD" fvBurst fvBurst 0 5
    (by rw [generate_signal_fvBurst_emits 0]; norm_num)
    (by norm_num [sgNew])
